import Mathlib

/-!
Shallow embedding of the crc-si/atlas visualisation subsystem: the
AbstractProjection / DynamicProjection playback engine, the
VisualisationManager artifact registry, and the GeoPoint / Vertex
conversions.  Entity identifiers and artifact keys are modelled as
natural numbers; data values are modelled as integers and geographic
coordinates as rationals.
-/

namespace Atlas

/-- Modelled from the spec: AbstractProjection
(atlas/visualisation/AbstractProjection is not under src/; only its tests and
callers are).  A projection maps per-entity data values to visual effects on a
set of entities.  Field entities lists the entity ids the projection controls;
appearance is the currently rendered appearance of every entity (the
mockedValue of the repo test suite); values holds the per-entity data that the
next render applies; effects records, for every entity rendered since the last
unrender, the pre-projection appearance that unrender restores (the recorded,
currently applied visual change enabling later reversal). -/
structure Proj where
  entities : List Nat
  appearance : Nat → Int
  values : Nat → Int
  effects : Nat → Option Int

/-- Modelled from the spec: render computes, for every entity in entities, the
effect for its current value, applies it to the entity (mutating the rendered
appearance) and stores the effect record; the record keeps the pre-projection
appearance, captured at the first render since the last unrender, so that
unrender can restore the pre-projection state.  Entities outside the
projection are untouched.  Re-rendering an unchanged value is idempotent. -/
def Proj.render (p : Proj) : Proj :=
  { p with
    appearance := fun id => if id ∈ p.entities then p.values id else p.appearance id,
    effects := fun id =>
      if id ∈ p.entities then some ((p.effects id).getD (p.appearance id))
      else p.effects id }

/-- Modelled from the spec: unrender removes every recorded effect, restoring
each affected entity to its pre-projection appearance, and clears all effect
records; it is a safe no-op when nothing has been rendered. -/
def Proj.unrender (p : Proj) : Proj :=
  { p with
    appearance := fun id =>
      match p.effects id with
      | some old => old
      | none => p.appearance id,
    effects := fun _ => none }

/-- Modelled from the spec: getPreviousState returns the mapping from entity
id to the state of the entity immediately before this projection started;
concretely it reads the current appearance off each entity, exactly as the
mock in the repo test suite does.  DynamicProjection calls it at start time,
before the first render, so the appearance at that moment is the pre-start
baseline. -/
def Proj.getPreviousState (p : Proj) : Nat → Int := p.appearance

/-- Playback status of a DynamicProjection. -/
inductive Status where
  | stopped
  | playing
  | paused
  | ended
deriving DecidableEq

/-- One discrete timestep of a dynamic projection: a sequencing index paired
with a mapping from entity id to value.  The index is an opaque sequencing
label, not a duration. -/
structure Frame where
  index : Int
  values : Nat → Int

/-- Placeholder frame used as the default of list lookups that are guarded by
length bounds. -/
def defaultFrame : Frame := ⟨0, fun _ => 0⟩

/-- Modelled from the spec: DynamicProjection
(atlas/visualisation/DynamicProjection is not under src/; only its tests are).
It decorates a wrapped AbstractProjection with an ordered list of frames, a
snapshot initial of the pre-playback state captured at first start, a playback
status, a cursor currentFrameIndex into frames, and pending, the number of
outstanding scheduled timer callbacks (the timer service offers
schedule-once-after-delay and cancel primitives; one outstanding timer exists
per active projection while playing). -/
structure DynProj where
  wrapped : Proj
  frames : List Frame
  initial : Nat → Int
  status : Status
  currentFrameIndex : Nat
  pending : Nat

/-- Modelled from the spec: start.  From stopped it captures
initial = wrapped.getPreviousState(), sets currentFrameIndex = 0, applies the
values of frame 0 to wrapped.values, calls wrapped.render(), sets status to
playing and schedules the next tick.  From paused it resumes the tick schedule
from the current frame without re-applying it and sets status to playing.
From playing or ended it is a no-op.  The spec makes an empty frame list a
construction-time error, so the frame lookup default is never reached under
the documented precondition that frames is non-empty. -/
def DynProj.start (d : DynProj) : DynProj :=
  match d.status with
  | .stopped =>
    { d with
      wrapped := Proj.render { d.wrapped with values := (d.frames.getD 0 defaultFrame).values },
      initial := d.wrapped.getPreviousState,
      currentFrameIndex := 0,
      status := .playing,
      pending := d.pending + 1 }
  | .paused => { d with status := .playing, pending := d.pending + 1 }
  | .playing => d
  | .ended => d

/-- Modelled from the spec: pause is valid only from playing; it cancels the
pending scheduled tick synchronously, sets status to paused and leaves the
currently rendered effects in place (no render or unrender call).  Outside
playing it is a no-op, the documented reference policy. -/
def DynProj.pause (d : DynProj) : DynProj :=
  match d.status with
  | .playing => { d with status := .paused, pending := 0 }
  | _ => d

/-- Modelled from the spec: stop is valid from any non-stopped status; it
cancels any pending tick, restores wrapped.values to initial, calls
wrapped.unrender() to remove all effects, resets currentFrameIndex to 0 and
sets status to stopped. -/
def DynProj.stop (d : DynProj) : DynProj :=
  match d.status with
  | .stopped => d
  | _ =>
    { d with
      wrapped := Proj.unrender { d.wrapped with values := d.initial },
      currentFrameIndex := 0,
      status := .stopped,
      pending := 0 }

/-- Modelled from the spec: one unit of elapsed time, firing the scheduled
tick if one is outstanding.  A tick fires only while a timer is pending and
status is playing (pause and stop cancel the timer synchronously, so no stale
tick ever fires).  On firing it advances currentFrameIndex by 1; if the cursor
now exceeds the last frame position the status becomes ended and further
scheduling is cancelled, leaving the last rendered frame in place (no unrender
on natural end); otherwise the new frame values are applied to
wrapped.values, wrapped.render() is invoked and the next tick is
rescheduled. -/
def DynProj.tick (d : DynProj) : DynProj :=
  if d.status = .playing ∧ 0 < d.pending then
    if d.frames.length ≤ d.currentFrameIndex + 1 then
      { d with
        currentFrameIndex := d.currentFrameIndex + 1,
        status := .ended,
        pending := 0 }
    else
      { d with
        currentFrameIndex := d.currentFrameIndex + 1,
        wrapped := Proj.render
          { d.wrapped with
            values := (d.frames.getD (d.currentFrameIndex + 1) defaultFrame).values },
        pending := d.pending - 1 + 1 }
  else d

/-- k units of elapsed time. -/
def DynProj.elapseN : Nat → DynProj → DynProj
  | 0, d => d
  | Nat.succ k, d => DynProj.elapseN k d.tick

/-- External events that may hit a running DynamicProjection between start and
the final stop: elapsed time (a potential tick) and the public operations
start and pause. -/
inductive Op where
  | tick
  | start
  | pause
deriving DecidableEq

/-- Apply one event to a DynamicProjection. -/
def applyOp (d : DynProj) : Op → DynProj
  | .tick => d.tick
  | .start => d.start
  | .pause => d.pause

/-- Apply a sequence of events, oldest first. -/
def applyOps : DynProj → List Op → DynProj
  | d, [] => d
  | d, o :: os => applyOps (applyOp d o) os

/-- Invariant of every state reachable after a start from a clean stopped
state with entity list E and baseline appearance D, as long as stop has not
been called: the entity list is unchanged, every controlled entity carries an
effect record holding its baseline appearance, uncontrolled entities are
untouched, the captured initial snapshot is the baseline, and the status is
not stopped. -/
def StopInv (E : List Nat) (D : Nat → Int) (d : DynProj) : Prop :=
  d.wrapped.entities = E ∧
  (∀ id, id ∈ E → d.wrapped.effects id = some (D id)) ∧
  (∀ id, id ∉ E → d.wrapped.effects id = none ∧ d.wrapped.appearance id = D id) ∧
  d.initial = D ∧
  d.status ≠ .stopped

/-- Scheduling discipline: exactly zero timers are outstanding outside
playing, and at most one while playing. -/
def WellScheduled (d : DynProj) : Prop :=
  (d.status = .playing → d.pending ≤ 1) ∧ (d.status ≠ .playing → d.pending = 0)

/-- State description after k elapsed ticks of a playback started from the
clean stopped state d0: still playing, cursor at position k, one timer
pending, frames and entity list unchanged, every controlled entity showing
the values of frame k and carrying an effect record with its pre-start
appearance. -/
def PlayingAt (d0 : DynProj) (k : Nat) (d : DynProj) : Prop :=
  d.status = .playing ∧
  d.currentFrameIndex = k ∧
  d.pending = 1 ∧
  d.frames = d0.frames ∧
  d.wrapped.entities = d0.wrapped.entities ∧
  (∀ id, id ∈ d0.wrapped.entities →
    d.wrapped.appearance id = (d0.frames.getD k defaultFrame).values id ∧
    d.wrapped.effects id = some (d0.wrapped.appearance id))

/-- A projection handle as the VisualisationManager sees it: the artifact it
targets (modelled as a natural number key) and an id distinguishing the
handle. -/
structure VMProj where
  artifact : Nat
  pid : Nat
deriving DecidableEq

/-- A value of the JavaScript registry object this._projections: a key can be
absent (undefined), explicitly null (what remove leaves behind), or bound to a
projection. -/
inductive RegVal where
  | undef
  | null
  | proj (p : VMProj)
deriving DecidableEq

/-- Errors the manager methods can raise: the TypeError raised by invoking a
method on null, and the DeveloperError the code throws on misuse. -/
inductive JsError where
  | typeError
  | developerError
deriving DecidableEq

/-- State of a VisualisationManager (src/visualisation/VisualisationManager.js):
the artifact registry plus logs of the projection handles on which unrender
and render have been invoked, most recent first.  The logs record the
delegated calls so that delegation is observable. -/
structure VisualisationManager where
  projections : Nat → RegVal
  unrenderLog : List Nat
  renderLog : List Nat

/-- Pointwise update of the registry object. -/
def updateReg (f : Nat → RegVal) (a : Nat) (v : RegVal) : Nat → RegVal :=
  fun b => if b = a then v else f b

/-- VisualisationManager.prototype.add: reads old = projections[artifact]; if
old is not undefined it invokes old.unrender() (a TypeError when old is the
null left behind by remove, aborting before the assignment) and returns old;
then binds the artifact to the new projection. -/
def VisualisationManager.add (vm : VisualisationManager) (p : VMProj) :
    Except JsError (VisualisationManager × Option VMProj) :=
  match vm.projections p.artifact with
  | .undef =>
    .ok ({ vm with projections := updateReg vm.projections p.artifact (.proj p) }, none)
  | .null => .error .typeError
  | .proj q =>
    .ok
      ({ vm with
          projections := updateReg vm.projections p.artifact (.proj p),
          unrenderLog := q.pid :: vm.unrenderLog },
        some q)

/-- VisualisationManager.prototype.remove: if the registry holds a projection
for the artifact (a truthy value), unrender it and set the registry entry to
null; in every case return the original registry value. -/
def VisualisationManager.remove (vm : VisualisationManager) (a : Nat) :
    VisualisationManager × RegVal :=
  match vm.projections a with
  | .proj q =>
    ({ vm with
        projections := updateReg vm.projections a .null,
        unrenderLog := q.pid :: vm.unrenderLog },
      .proj q)
  | v => (vm, v)

/-- VisualisationManager.prototype.render: throws a DeveloperError when the
registry entry for the artifact is falsy (undefined or null); otherwise
delegates to the render method of the registered projection. -/
def VisualisationManager.render (vm : VisualisationManager) (a : Nat) :
    Except JsError VisualisationManager :=
  match vm.projections a with
  | .proj q => .ok { vm with renderLog := q.pid :: vm.renderLog }
  | _ => .error .developerError

/-- VisualisationManager.prototype.unrender: throws a DeveloperError when the
registry entry for the artifact is falsy (undefined or null); otherwise
delegates to the unrender method of the registered projection. -/
def VisualisationManager.unrender (vm : VisualisationManager) (a : Nat) :
    Except JsError VisualisationManager :=
  match vm.projections a with
  | .proj q => .ok { vm with unrenderLog := q.pid :: vm.unrenderLog }
  | _ => .error .developerError

/-- A geospatial location (src/unnamed/part_001): latitude, longitude and
elevation.  Coordinates are modelled as rationals; the parseFloat coercion of
the constructor is the identity on numeric inputs. -/
structure GeoPoint where
  latitude : ℚ
  longitude : ℚ
  elevation : ℚ
deriving DecidableEq

/-- A Vertex (atlas/model/Vertex is not under src/; modelled from its JSDoc
and call sites in src/unnamed/part_001): constructor arguments are x, y, z in
that order, with x the longitude, y the latitude and z the elevation. -/
structure Vertex where
  x : ℚ
  y : ℚ
  z : ℚ
deriving DecidableEq

/-- The GeoPoint constructor: each argument passes through parseFloat(a) || 0,
so an omitted argument (modelled as none) becomes 0 and a numeric argument
passes through unchanged. -/
def GeoPoint.init (lat lng elevation : Option ℚ) : GeoPoint :=
  ⟨lat.getD 0, lng.getD 0, elevation.getD 0⟩

/-- GeoPoint.prototype.toVertex: returns new Vertex(longitude, latitude,
elevation). -/
def GeoPoint.toVertex (p : GeoPoint) : Vertex :=
  ⟨p.longitude, p.latitude, p.elevation⟩

/-- GeoPoint.fromVertex: a falsy vertex yields new GeoPoint(); otherwise it
returns new GeoPoint(vertex.y, vertex.x, vertex.y). -/
def GeoPoint.fromVertex : Option Vertex → GeoPoint
  | none => GeoPoint.init none none none
  | some v => GeoPoint.init (some v.y) (some v.x) (some v.y)

/-- Concrete entity list mirroring the repo DynamicProjection test suite. -/
def exEntities : List Nat := [0, 1, 2, 3, 4]

/-- Baseline appearance of the test entities: entity id maps to id. -/
def exAppearance : Nat → Int := fun id => (id : Int)

/-- The three-frame data set of the repo DynamicProjection test suite: frame k
maps entity id to 10 * id + k. -/
def exFrames : List Frame :=
  [⟨0, fun id => 10 * (id : Int)⟩,
   ⟨1, fun id => 10 * (id : Int) + 1⟩,
   ⟨2, fun id => 10 * (id : Int) + 2⟩]

/-- The mocked AbstractProjection of the test suite, in its clean pre-start
state. -/
def exProj : Proj :=
  { entities := exEntities,
    appearance := exAppearance,
    values := fun _ => 0,
    effects := fun _ => none }

/-- A freshly constructed DynamicProjection over the test data. -/
def exDyn : DynProj :=
  { wrapped := exProj,
    frames := exFrames,
    initial := fun _ => 0,
    status := .stopped,
    currentFrameIndex := 0,
    pending := 0 }

/-- A paused DynamicProjection at frame 1 of the test data, as produced by
start, one elapsed tick and pause. -/
def exPausedDyn : DynProj :=
  DynProj.pause (DynProj.elapseN 1 (DynProj.start exDyn))

/-- Example projection handle replaced in the manager examples. -/
def qEx : VMProj := ⟨7, 1⟩

/-- Example projection handle added in the manager examples. -/
def pEx : VMProj := ⟨7, 2⟩

/-- An empty VisualisationManager. -/
def vmEmpty : VisualisationManager :=
  { projections := fun _ => .undef, unrenderLog := [], renderLog := [] }

/-- A VisualisationManager holding qEx for artifact 7. -/
def vmProjEx : VisualisationManager :=
  { projections := updateReg (fun _ => .undef) 7 (.proj qEx),
    unrenderLog := [], renderLog := [] }

/-- The manager state after remove(7) on vmProjEx: the registry entry for
artifact 7 is the null left behind by remove. -/
def vmNullEx : VisualisationManager :=
  (vmProjEx.remove 7).1

/-- A state fixed by one tick is fixed by any amount of elapsed time. -/
theorem elapseN_of_tick_fixed (k : Nat) (d : DynProj) (h : d.tick = d) :
    DynProj.elapseN k d = d := by
  induction k with
  | zero => rfl
  | succ k ih =>
    have h1 : DynProj.elapseN (k + 1) d = DynProj.elapseN k d.tick := rfl
    rw [h1, h]
    exact ih

/-- Elapsing k + 1 units equals elapsing k units and then ticking once. -/
theorem elapseN_succ (k : Nat) (d : DynProj) :
    DynProj.elapseN (k + 1) d = (DynProj.elapseN k d).tick := by
  induction k generalizing d with
  | zero => rfl
  | succ k ih =>
    have h1 : DynProj.elapseN (k + 1 + 1) d = DynProj.elapseN (k + 1) d.tick := rfl
    rw [h1, ih]
    rfl

/-- Unfolding of start from a stopped state. -/
theorem dp_start_stopped_eq (d : DynProj) (h : d.status = .stopped) :
    d.start =
      { d with
        wrapped := Proj.render
          { d.wrapped with values := (d.frames.getD 0 defaultFrame).values },
        initial := d.wrapped.getPreviousState,
        currentFrameIndex := 0,
        status := .playing,
        pending := d.pending + 1 } := by
  unfold DynProj.start
  rw [h]

/-- Unfolding of start from a paused state. -/
theorem dp_start_paused_eq (d : DynProj) (h : d.status = .paused) :
    d.start = { d with status := .playing, pending := d.pending + 1 } := by
  unfold DynProj.start
  rw [h]

/-- Unfolding of pause from a playing state. -/
theorem dp_pause_playing_eq (d : DynProj) (h : d.status = .playing) :
    d.pause = { d with status := .paused, pending := 0 } := by
  unfold DynProj.pause
  rw [h]

/-- After start from a clean stopped state the playback is playing at frame
0: every controlled entity shows the frame 0 values and carries an effect
record holding its pre-start appearance. -/
theorem playingAt_start (d0 : DynProj) (h1 : d0.status = .stopped) (h2 : d0.pending = 0)
    (h3 : ∀ id, d0.wrapped.effects id = none) :
    PlayingAt d0 0 d0.start := by
  rw [dp_start_stopped_eq d0 h1]
  refine ⟨rfl, rfl, by rw [h2], rfl, rfl, ?_⟩
  intro id hid
  constructor
  · simp [Proj.render, hid]
  · simp [Proj.render, hid, h3 id]

/-- One tick taken strictly before the end of the frame list keeps the
playback invariant and advances the cursor by one. -/
theorem playingAt_tick (d0 : DynProj) (k : Nat) (d : DynProj)
    (hk : PlayingAt d0 k d) (hlt : k + 1 < d0.frames.length) :
    PlayingAt d0 (k + 1) d.tick := by
  have hst := hk.1
  have hcfi := hk.2.1
  have hp := hk.2.2.1
  have hfr := hk.2.2.2.1
  have hent := hk.2.2.2.2.1
  have hdisp := hk.2.2.2.2.2
  have hcond : d.status = .playing ∧ 0 < d.pending := ⟨hst, by rw [hp]; exact Nat.one_pos⟩
  have hnl : ¬ d.frames.length ≤ d.currentFrameIndex + 1 := by
    rw [hfr, hcfi]
    exact Nat.not_le.mpr hlt
  have htick : d.tick =
      { d with
        currentFrameIndex := d.currentFrameIndex + 1,
        wrapped := Proj.render
          { d.wrapped with
            values := (d.frames.getD (d.currentFrameIndex + 1) defaultFrame).values },
        pending := d.pending - 1 + 1 } := by
    unfold DynProj.tick
    rw [if_pos hcond, if_neg hnl]
  rw [htick]
  refine ⟨hst, by rw [hcfi], by rw [hp], hfr, hent, ?_⟩
  intro id hid
  have hid2 : id ∈ d.wrapped.entities := by rw [hent]; exact hid
  constructor
  · simp [Proj.render, hid2, hfr, hcfi]
  · simp [Proj.render, hid2, (hdisp id hid).2]

/-- After k elapsed ticks of a playback started from a clean stopped state,
with k still inside the frame list, the playback invariant holds at cursor
position k. -/
theorem playingAt_elapseN (d0 : DynProj) (h1 : d0.status = .stopped) (h2 : d0.pending = 0)
    (h3 : ∀ id, d0.wrapped.effects id = none) :
    ∀ k, k < d0.frames.length → PlayingAt d0 k (DynProj.elapseN k d0.start) := by
  intro k
  induction k with
  | zero => exact fun _ => playingAt_start d0 h1 h2 h3
  | succ k ih =>
    intro hk
    rw [elapseN_succ]
    exact playingAt_tick d0 k _ (ih (Nat.lt_of_succ_lt hk)) hk

/-- Every event in Op preserves the StopInv reachability invariant. -/
theorem stopInv_applyOp (E : List Nat) (D : Nat → Int) (d : DynProj) (o : Op)
    (h : StopInv E D d) : StopInv E D (applyOp d o) := by
  have hE := h.1
  have hIn := h.2.1
  have hOut := h.2.2.1
  have hInit := h.2.2.2.1
  have hNs := h.2.2.2.2
  cases o with
  | tick =>
    show StopInv E D d.tick
    unfold DynProj.tick
    by_cases hc : d.status = .playing ∧ 0 < d.pending
    · rw [if_pos hc]
      by_cases hl : d.frames.length ≤ d.currentFrameIndex + 1
      · rw [if_pos hl]
        exact ⟨hE, hIn, hOut, hInit, fun hx => Status.noConfusion hx⟩
      · rw [if_neg hl]
        refine ⟨hE, ?_, ?_, hInit, ?_⟩
        · intro id hid
          have hid2 : id ∈ d.wrapped.entities := by rw [hE]; exact hid
          simp [Proj.render, hid2, hIn id hid]
        · intro id hid
          have hid2 : id ∉ d.wrapped.entities := by rw [hE]; exact hid
          simp [Proj.render, hid2, (hOut id hid).1, (hOut id hid).2]
        · show d.status ≠ .stopped
          exact hNs
    · rw [if_neg hc]
      exact h
  | start =>
    show StopInv E D d.start
    cases hs : d.status with
    | stopped => exact absurd hs hNs
    | paused =>
      rw [dp_start_paused_eq d hs]
      exact ⟨hE, hIn, hOut, hInit, fun hx => Status.noConfusion hx⟩
    | playing =>
      have : d.start = d := by unfold DynProj.start; rw [hs]
      rw [this]
      exact h
    | ended =>
      have : d.start = d := by unfold DynProj.start; rw [hs]
      rw [this]
      exact h
  | pause =>
    show StopInv E D d.pause
    cases hs : d.status with
    | playing =>
      rw [dp_pause_playing_eq d hs]
      exact ⟨hE, hIn, hOut, hInit, fun hx => Status.noConfusion hx⟩
    | stopped => exact absurd hs hNs
    | paused =>
      have : d.pause = d := by unfold DynProj.pause; rw [hs]
      rw [this]
      exact h
    | ended =>
      have : d.pause = d := by unfold DynProj.pause; rw [hs]
      rw [this]
      exact h

/-- Every event sequence preserves the StopInv reachability invariant. -/
theorem stopInv_applyOps (E : List Nat) (D : Nat → Int) (d : DynProj) (ops : List Op)
    (h : StopInv E D d) : StopInv E D (applyOps d ops) := by
  induction ops generalizing d with
  | nil => exact h
  | cons o os ih => exact ih _ (stopInv_applyOp E D d o h)

/-- Starting a clean stopped DynamicProjection establishes the StopInv
invariant for its entity list and baseline appearance. -/
theorem stopInv_start (d0 : DynProj) (h1 : d0.status = .stopped)
    (h3 : ∀ id, d0.wrapped.effects id = none) :
    StopInv d0.wrapped.entities d0.wrapped.appearance d0.start := by
  rw [dp_start_stopped_eq d0 h1]
  refine ⟨rfl, ?_, ?_, rfl, fun hx => Status.noConfusion hx⟩
  · intro id hid
    simp [Proj.render, hid, h3 id]
  · intro id hid
    simp [Proj.render, hid, h3 id]

/-- Looking up the key just written into the registry yields the written
value. -/
theorem updateReg_same (f : Nat → RegVal) (a : Nat) (v : RegVal) :
    updateReg f a v a = v := by
  simp [updateReg]

/-- C10: for every vertex v, GeoPoint.fromVertex v yields latitude = v.y,
longitude = v.x and elevation = v.y, ignoring v.z; consequently the round
trip fromVertex(toVertex p) preserves latitude and longitude but returns an
elevation equal to the latitude of p. -/
theorem geoPoint_fromVertex_swap :
    (∀ v : Vertex, GeoPoint.fromVertex (some v) = ⟨v.y, v.x, v.y⟩) ∧
    (∀ p : GeoPoint,
      (GeoPoint.fromVertex (some p.toVertex)).latitude = p.latitude ∧
      (GeoPoint.fromVertex (some p.toVertex)).longitude = p.longitude ∧
      (GeoPoint.fromVertex (some p.toVertex)).elevation = p.latitude) := by
  constructor
  · intro v
    rfl
  · intro p
    exact ⟨rfl, rfl, rfl⟩

/-- C8: render(artifact) and unrender(artifact) throw a DeveloperError
exactly when no projection is registered for the artifact; when a projection
q is registered they succeed and delegate to the render respectively unrender
method of q. -/
theorem vm_render_unrender_spec (vm : VisualisationManager) (a : Nat) :
    (vm.render a = .error .developerError ↔ ∀ q, vm.projections a ≠ .proj q) ∧
    (vm.unrender a = .error .developerError ↔ ∀ q, vm.projections a ≠ .proj q) ∧
    (∀ q, vm.projections a = .proj q →
      vm.render a = .ok { vm with renderLog := q.pid :: vm.renderLog } ∧
      vm.unrender a = .ok { vm with unrenderLog := q.pid :: vm.unrenderLog }) := by
  refine ⟨?_, ?_, ?_⟩
  · cases h : vm.projections a <;>
      simp [VisualisationManager.render, h]
  · cases h : vm.projections a <;>
      simp [VisualisationManager.unrender, h]
  · intro q h
    exact ⟨by simp [VisualisationManager.render, h], by simp [VisualisationManager.unrender, h]⟩

/-- C8 witness: on the concrete manager holding qEx for artifact 7, render
delegates to the registered projection. -/
theorem vm_render_unrender_spec_witness :
    vmProjEx.projections 7 = RegVal.proj qEx ∧
    vmProjEx.render 7 = Except.ok { vmProjEx with renderLog := [qEx.pid] } :=
  ⟨rfl, ((vm_render_unrender_spec vmProjEx 7).2.2 qEx rfl).1⟩

/-- C9: remove stores null in the registry rather than deleting the entry, and
returns the removed projection; a subsequent add for the same artifact then
reaches old.unrender() with old equal to null and throws a TypeError instead
of registering the projection and returning none. -/
theorem vm_remove_then_add (vm : VisualisationManager) (a : Nat) (q p : VMProj)
    (h1 : vm.projections a = .proj q) (h2 : p.artifact = a) :
    (vm.remove a).1.projections a = RegVal.null ∧
    (vm.remove a).2 = RegVal.proj q ∧
    (vm.remove a).1.add p = .error .typeError := by
  have hrem : vm.remove a =
      ({ vm with
          projections := updateReg vm.projections a .null,
          unrenderLog := q.pid :: vm.unrenderLog },
        .proj q) := by
    simp [VisualisationManager.remove, h1]
  refine ⟨?_, ?_, ?_⟩
  · rw [hrem]
    exact updateReg_same _ _ _
  · rw [hrem]
  · rw [hrem]
    simp [VisualisationManager.add, h2, updateReg_same]

/-- C9 witness: removing artifact 7 from the concrete manager and adding a new
projection for artifact 7 throws a TypeError. -/
theorem vm_remove_then_add_witness :
    vmProjEx.projections 7 = RegVal.proj qEx ∧ pEx.artifact = 7 ∧
    ((vmProjEx.remove 7).1.projections 7 = RegVal.null ∧
      (vmProjEx.remove 7).2 = RegVal.proj qEx ∧
      (vmProjEx.remove 7).1.add pEx = .error .typeError) :=
  ⟨rfl, rfl, vm_remove_then_add vmProjEx 7 qEx pEx rfl rfl⟩

/-- C7 counterexample: in the manager state left by remove(7), the registry
entry for artifact 7 is null, so no projection targets artifact 7, yet
add(pEx) throws a TypeError instead of registering pEx and returning none. -/
theorem vm_add_c7_cex :
    vmNullEx.projections 7 = RegVal.null ∧
    vmNullEx.add pEx = Except.error JsError.typeError := by
  exact ⟨rfl, rfl⟩

/-- C7 as amended: for every manager state in which the registry entry for the
artifact of the new projection is a projection q, add unrenders q, replaces it
by the new projection and returns q; for every state in which the entry is
absent (undefined, as opposed to the null left behind by remove), add
registers the new projection and returns none. -/
theorem vm_add_spec (vm : VisualisationManager) (p : VMProj) :
    (∀ q, vm.projections p.artifact = RegVal.proj q →
      vm.add p = .ok
        ({ vm with
            projections := updateReg vm.projections p.artifact (.proj p),
            unrenderLog := q.pid :: vm.unrenderLog },
          some q) ∧
      updateReg vm.projections p.artifact (.proj p) p.artifact = RegVal.proj p) ∧
    (vm.projections p.artifact = RegVal.undef →
      vm.add p = .ok
        ({ vm with projections := updateReg vm.projections p.artifact (.proj p) }, none) ∧
      updateReg vm.projections p.artifact (.proj p) p.artifact = RegVal.proj p) := by
  constructor
  · intro q h
    exact ⟨by simp [VisualisationManager.add, h], updateReg_same _ _ _⟩
  · intro h
    exact ⟨by simp [VisualisationManager.add, h], updateReg_same _ _ _⟩

/-- C7 witness: adding pEx to the empty manager registers it for artifact 7
and returns none. -/
theorem vm_add_spec_witness :
    vmEmpty.projections 7 = RegVal.undef ∧
    (vmEmpty.add pEx = .ok
      ({ vmEmpty with projections := updateReg vmEmpty.projections 7 (.proj pEx) }, none) ∧
      updateReg vmEmpty.projections 7 (.proj pEx) 7 = RegVal.proj pEx) :=
  ⟨rfl, (vm_add_spec vmEmpty pEx).2 rfl⟩

/-- C2: start on a stopped DynamicProjection with frames f0 :: rest captures
initial = wrapped.getPreviousState(), sets currentFrameIndex = 0, applies the
values of frame 0 to wrapped.values, renders them so that already at time 0
every controlled entity reflects the frame 0 values, and sets status to
playing. -/
theorem dp_start_from_stopped (d : DynProj) (f0 : Frame) (rest : List Frame)
    (h1 : d.status = .stopped) (h2 : d.frames = f0 :: rest) :
    d.start.initial = d.wrapped.getPreviousState ∧
    d.start.currentFrameIndex = 0 ∧
    d.start.status = .playing ∧
    d.start.wrapped.values = f0.values ∧
    (∀ id, id ∈ d.wrapped.entities → d.start.wrapped.appearance id = f0.values id) := by
  have hs := dp_start_stopped_eq d h1
  refine ⟨by rw [hs], by rw [hs], by rw [hs], ?_, ?_⟩
  · rw [hs]
    simp [Proj.render, h2]
  · intro id hid
    rw [hs]
    simp [Proj.render, h2, hid]

/-- C2 witness: starting the concrete test DynamicProjection captures the
baseline, starts playing at cursor 0 and renders the frame 0 value onto
entity 1. -/
theorem dp_start_from_stopped_witness :
    exDyn.status = Status.stopped ∧
    exDyn.frames = Frame.mk 0 (fun id => 10 * (id : Int)) ::
      [Frame.mk 1 (fun id => 10 * (id : Int) + 1), Frame.mk 2 (fun id => 10 * (id : Int) + 2)] ∧
    (1 : Nat) ∈ exDyn.wrapped.entities ∧
    (exDyn.start.initial = exDyn.wrapped.getPreviousState ∧
      exDyn.start.currentFrameIndex = 0 ∧
      exDyn.start.status = Status.playing ∧
      exDyn.start.wrapped.appearance 1 = 10) := by
  have h := dp_start_from_stopped exDyn (Frame.mk 0 (fun id => 10 * (id : Int)))
    [Frame.mk 1 (fun id => 10 * (id : Int) + 1), Frame.mk 2 (fun id => 10 * (id : Int) + 2)]
    rfl rfl
  have hmem : (1 : Nat) ∈ exDyn.wrapped.entities := by decide
  exact ⟨rfl, rfl, hmem, h.1, h.2.1, h.2.2.1, (h.2.2.2.2 1 hmem).trans (by decide)⟩

/-- C3: pause from playing cancels the pending scheduled tick, sets status to
paused and touches neither the wrapped projection nor the rendered
appearances; afterwards any amount of elapsed time leaves the whole state,
and in particular the rendered frame values, unchanged, while a later start
resumes playing. -/
theorem dp_pause_freezes (d : DynProj) (h : d.status = .playing) :
    d.pause.status = .paused ∧
    d.pause.pending = 0 ∧
    d.pause.wrapped = d.wrapped ∧
    (∀ k, DynProj.elapseN k d.pause = d.pause) ∧
    d.pause.start.status = .playing := by
  have hp := dp_pause_playing_eq d h
  have hfix : d.pause.tick = d.pause := by
    rw [hp]
    unfold DynProj.tick
    simp
  refine ⟨by rw [hp], by rw [hp], by rw [hp], fun k => elapseN_of_tick_fixed k _ hfix, ?_⟩
  rw [hp]
  rfl

/-- C3 witness: pausing the started test projection freezes it for five
elapsed units. -/
theorem dp_pause_freezes_witness :
    (DynProj.start exDyn).status = Status.playing ∧
    ((DynProj.start exDyn).pause.status = Status.paused ∧
      DynProj.elapseN 5 (DynProj.start exDyn).pause = (DynProj.start exDyn).pause) := by
  have h := dp_pause_freezes (DynProj.start exDyn) rfl
  exact ⟨rfl, h.1, h.2.2.2.1 5⟩

/-- C5: start from paused leaves the wrapped projection untouched (no
re-render of the current frame), keeps the cursor, schedules a tick and sets
status to playing; when a following frame exists the next elapsed tick
advances the cursor to it and renders its values on every controlled
entity. -/
theorem dp_resume_from_paused (d : DynProj) (h : d.status = .paused) :
    d.start.wrapped = d.wrapped ∧
    d.start.status = .playing ∧
    d.start.currentFrameIndex = d.currentFrameIndex ∧
    d.start.pending = d.pending + 1 ∧
    (d.currentFrameIndex + 1 < d.frames.length →
      d.start.tick.currentFrameIndex = d.currentFrameIndex + 1 ∧
      ∀ id, id ∈ d.wrapped.entities →
        d.start.tick.wrapped.appearance id =
          (d.frames.getD (d.currentFrameIndex + 1) defaultFrame).values id) := by
  have hs := dp_start_paused_eq d h
  refine ⟨by rw [hs], by rw [hs], by rw [hs], by rw [hs], ?_⟩
  intro hlt
  have htick : d.start.tick =
      { d.start with
        currentFrameIndex := d.currentFrameIndex + 1,
        wrapped := Proj.render
          { d.wrapped with
            values := (d.frames.getD (d.currentFrameIndex + 1) defaultFrame).values },
        pending := d.pending + 1 - 1 + 1 } := by
    rw [hs]
    unfold DynProj.tick
    rw [if_pos ⟨rfl, Nat.succ_pos _⟩, if_neg (by exact Nat.not_le.mpr hlt)]
  refine ⟨by rw [htick], ?_⟩
  intro id hid
  rw [htick]
  simp [Proj.render, hid]

/-- C5 witness: resuming the concrete paused projection at frame 1 keeps the
rendered state and the next tick renders frame 2 onto entity 1. -/
theorem dp_resume_from_paused_witness :
    exPausedDyn.status = Status.paused ∧
    exPausedDyn.currentFrameIndex + 1 < exPausedDyn.frames.length ∧
    (1 : Nat) ∈ exPausedDyn.wrapped.entities ∧
    (exPausedDyn.start.wrapped = exPausedDyn.wrapped ∧
      exPausedDyn.start.status = Status.playing ∧
      exPausedDyn.start.tick.currentFrameIndex = exPausedDyn.currentFrameIndex + 1 ∧
      exPausedDyn.start.tick.wrapped.appearance 1 = 12) := by
  have h := dp_resume_from_paused exPausedDyn rfl
  have hlt : exPausedDyn.currentFrameIndex + 1 < exPausedDyn.frames.length := by decide
  have hmem : (1 : Nat) ∈ exPausedDyn.wrapped.entities := by decide
  refine ⟨rfl, hlt, hmem, h.1, h.2.1, (h.2.2.2.2 hlt).1, ?_⟩
  exact ((h.2.2.2.2 hlt).2 1 hmem).trans (by decide)

/-- C6: start is idempotent: from playing or ended it is a no-op on the whole
state, applying start twice always equals applying it once, and the
discipline that at most one timer is outstanding while playing and none
otherwise is preserved by every operation, so a second start while already
playing never produces duplicate scheduling. -/
theorem dp_start_idempotent (d : DynProj) :
    (d.status = .playing ∨ d.status = .ended → d.start = d) ∧
    d.start.start = d.start ∧
    (WellScheduled d →
      (∀ o : Op, WellScheduled (applyOp d o)) ∧ WellScheduled d.stop) := by
  have hnoop : ∀ e : DynProj, e.status = .playing ∨ e.status = .ended → e.start = e := by
    intro e he
    cases he with
    | inl h => unfold DynProj.start; rw [h]
    | inr h => unfold DynProj.start; rw [h]
  refine ⟨hnoop d, ?_, ?_⟩
  · cases hs : d.status with
    | stopped =>
      rw [dp_start_stopped_eq d hs]
      rfl
    | paused =>
      rw [dp_start_paused_eq d hs]
      rfl
    | playing =>
      have h := hnoop d (Or.inl hs)
      rw [h, h]
    | ended =>
      have h := hnoop d (Or.inr hs)
      rw [h, h]
  · intro hws
    constructor
    · intro o
      cases o with
      | tick =>
        show WellScheduled d.tick
        unfold DynProj.tick
        by_cases hc : d.status = .playing ∧ 0 < d.pending
        · rw [if_pos hc]
          by_cases hl : d.frames.length ≤ d.currentFrameIndex + 1
          · rw [if_pos hl]
            exact ⟨fun h => Status.noConfusion h, fun _ => rfl⟩
          · rw [if_neg hl]
            have hp1 : d.pending = 1 :=
              Nat.le_antisymm (hws.1 hc.1) hc.2
            exact ⟨fun _ => by rw [hp1], fun h => absurd hc.1 h⟩
        · rw [if_neg hc]
          exact hws
      | start =>
        show WellScheduled d.start
        cases hs : d.status with
        | stopped =>
          rw [dp_start_stopped_eq d hs]
          have hp0 : d.pending = 0 := hws.2 (by rw [hs]; intro h; cases h)
          exact ⟨fun _ => by rw [hp0], fun h => absurd rfl h⟩
        | paused =>
          rw [dp_start_paused_eq d hs]
          have hp0 : d.pending = 0 := hws.2 (by rw [hs]; intro h; cases h)
          exact ⟨fun _ => by rw [hp0], fun h => absurd rfl h⟩
        | playing => rw [hnoop d (Or.inl hs)]; exact hws
        | ended => rw [hnoop d (Or.inr hs)]; exact hws
      | pause =>
        show WellScheduled d.pause
        cases hs : d.status with
        | playing =>
          rw [dp_pause_playing_eq d hs]
          exact ⟨fun h => Status.noConfusion h, fun _ => rfl⟩
        | stopped => unfold DynProj.pause; rw [hs]; exact hws
        | paused => unfold DynProj.pause; rw [hs]; exact hws
        | ended => unfold DynProj.pause; rw [hs]; exact hws
    · cases hs : d.status with
      | stopped => unfold DynProj.stop; rw [hs]; exact hws
      | playing =>
        unfold DynProj.stop; rw [hs]
        exact ⟨fun h => Status.noConfusion h, fun _ => rfl⟩
      | paused =>
        unfold DynProj.stop; rw [hs]
        exact ⟨fun h => Status.noConfusion h, fun _ => rfl⟩
      | ended =>
        unfold DynProj.stop; rw [hs]
        exact ⟨fun h => Status.noConfusion h, fun _ => rfl⟩

/-- C1 counterexample: the three-frame test projection has N = 3 frames, yet
after start and N − 1 = 2 elapsed ticks the status is still playing, not
ended, refuting the claim that N − 1 ticks suffice to end playback. -/
theorem dp_natural_end_cex :
    exDyn.frames.length = 3 ∧
    (DynProj.elapseN 2 (DynProj.start exDyn)).status = Status.playing :=
  ⟨rfl, rfl⟩

/-- C1 as amended: for every frame sequence of length N, starting a clean
stopped DynamicProjection and advancing N ticks (not N − 1) yields status
ended, every controlled entity reflects exactly the values of the last frame,
and the effect of the last frame remains rendered (its effect record, holding
the pre-start appearance, is still in place: no unrender on natural end). -/
theorem dp_natural_end (d0 : DynProj) (h1 : d0.status = .stopped) (h2 : d0.pending = 0)
    (h3 : ∀ id, d0.wrapped.effects id = none) (h4 : d0.frames ≠ []) :
    (DynProj.elapseN d0.frames.length d0.start).status = .ended ∧
    ∀ id, id ∈ d0.wrapped.entities →
      (DynProj.elapseN d0.frames.length d0.start).wrapped.appearance id =
        (d0.frames.getD (d0.frames.length - 1) defaultFrame).values id ∧
      (DynProj.elapseN d0.frames.length d0.start).wrapped.effects id =
        some (d0.wrapped.appearance id) := by
  have hN : 0 < d0.frames.length := List.length_pos.mpr h4
  obtain ⟨m, hm⟩ : ∃ m, d0.frames.length = m + 1 :=
    ⟨d0.frames.length - 1, (Nat.succ_pred_eq_of_pos hN).symm⟩
  have hP := playingAt_elapseN d0 h1 h2 h3 m (by rw [hm]; exact Nat.lt_succ_self m)
  set s := DynProj.elapseN m d0.start with hsdef
  have hst := hP.1
  have hcfi := hP.2.1
  have hp := hP.2.2.1
  have hfr := hP.2.2.2.1
  have hdisp := hP.2.2.2.2.2
  have hcond : s.status = .playing ∧ 0 < s.pending := ⟨hst, by rw [hp]; exact Nat.one_pos⟩
  have hl : s.frames.length ≤ s.currentFrameIndex + 1 := by
    rw [hfr, hcfi, hm]
  have htick : s.tick =
      { s with
        currentFrameIndex := s.currentFrameIndex + 1,
        status := .ended,
        pending := 0 } := by
    unfold DynProj.tick
    rw [if_pos hcond, if_pos hl]
  have hEl : DynProj.elapseN d0.frames.length d0.start = s.tick := by
    rw [hm, hsdef]
    exact elapseN_succ m d0.start
  rw [hEl, htick]
  refine ⟨rfl, ?_⟩
  intro id hid
  constructor
  · have h5 := (hdisp id hid).1
    have h6 : d0.frames.length - 1 = m := by rw [hm]; exact Nat.add_sub_cancel m 1
    rw [h6]
    exact h5
  · exact (hdisp id hid).2

/-- C1 witness: for the three-frame test data, start plus 3 elapsed ticks
ends playback with the last frame values rendered on entity 3 and its effect
record still present. -/
theorem dp_natural_end_witness :
    exDyn.status = Status.stopped ∧ exDyn.pending = 0 ∧
    exDyn.wrapped.effects 3 = none ∧
    ((DynProj.elapseN exDyn.frames.length (DynProj.start exDyn)).status = Status.ended ∧
      (DynProj.elapseN exDyn.frames.length (DynProj.start exDyn)).wrapped.appearance 3 =
        (exDyn.frames.getD (exDyn.frames.length - 1) defaultFrame).values 3 ∧
      (DynProj.elapseN exDyn.frames.length (DynProj.start exDyn)).wrapped.effects 3 =
        some (exDyn.wrapped.appearance 3)) := by
  have h := dp_natural_end exDyn rfl rfl (fun _ => rfl) (List.cons_ne_nil _ _)
  have hmem : (3 : Nat) ∈ exDyn.wrapped.entities := by decide
  exact ⟨rfl, rfl, rfl, h.1, (h.2 3 hmem).1, (h.2 3 hmem).2⟩

/-- C4: stop after a start from a clean stopped state, with any sequence of
tick, start and pause events in between (all of which leave the status
non-stopped), cancels any pending tick, restores wrapped.values to the
captured initial snapshot, unrenders all effects so that every entity
appearance returns to its pre-start baseline, resets currentFrameIndex to 0
and sets status to stopped: start followed at any point by stop is an
identity on the observable entity values. -/
theorem dp_stop_restores (d0 : DynProj) (ops : List Op) (h1 : d0.status = .stopped)
    (h3 : ∀ id, d0.wrapped.effects id = none) :
    (applyOps d0.start ops).status ≠ .stopped ∧
    (applyOps d0.start ops).stop.status = .stopped ∧
    (applyOps d0.start ops).stop.currentFrameIndex = 0 ∧
    (applyOps d0.start ops).stop.pending = 0 ∧
    (applyOps d0.start ops).stop.wrapped.values = d0.wrapped.getPreviousState ∧
    (∀ id, (applyOps d0.start ops).stop.wrapped.appearance id = d0.wrapped.appearance id) ∧
    (∀ id, (applyOps d0.start ops).stop.wrapped.effects id = none) := by
  have hinv := stopInv_applyOps _ _ _ ops (stopInv_start d0 h1 h3)
  set s := applyOps d0.start ops with hsdef
  have hE := hinv.1
  have hIn := hinv.2.1
  have hOut := hinv.2.2.1
  have hInit := hinv.2.2.2.1
  have hNs := hinv.2.2.2.2
  have hstop : s.stop =
      { s with
        wrapped := Proj.unrender { s.wrapped with values := s.initial },
        currentFrameIndex := 0,
        status := .stopped,
        pending := 0 } := by
    cases hss : s.status with
    | stopped => exact absurd hss hNs
    | playing => unfold DynProj.stop; rw [hss]
    | paused => unfold DynProj.stop; rw [hss]
    | ended => unfold DynProj.stop; rw [hss]
  rw [hstop]
  refine ⟨hNs, rfl, rfl, rfl, ?_, ?_, fun _ => rfl⟩
  · exact hInit
  · intro id
    by_cases hid : id ∈ d0.wrapped.entities
    · simp [Proj.unrender, hIn id hid]
    · simp [Proj.unrender, (hOut id hid).1, (hOut id hid).2]

/-- C4 witness: starting the concrete test projection, letting one tick
elapse and stopping restores entity 3 to its baseline appearance with no
effect recorded, in the stopped status. -/
theorem dp_stop_restores_witness :
    exDyn.status = Status.stopped ∧
    exDyn.wrapped.effects 3 = none ∧
    ((applyOps exDyn.start [Op.tick]).stop.status = Status.stopped ∧
      (applyOps exDyn.start [Op.tick]).stop.currentFrameIndex = 0 ∧
      (applyOps exDyn.start [Op.tick]).stop.wrapped.appearance 3 =
        exDyn.wrapped.appearance 3 ∧
      (applyOps exDyn.start [Op.tick]).stop.wrapped.effects 3 = none) := by
  have h := dp_stop_restores exDyn [Op.tick] rfl (fun _ => rfl)
  exact ⟨rfl, rfl, h.2.1, h.2.2.1, h.2.2.2.2.2.1 3, h.2.2.2.2.2.2 3⟩

/-- C6 witness: starting the already playing concrete projection changes
nothing, and the scheduling discipline holds of it and is preserved by a
second start. -/
theorem dp_start_idempotent_witness :
    (DynProj.start exDyn).status = Status.playing ∧
    (DynProj.start exDyn).start = DynProj.start exDyn ∧
    WellScheduled (DynProj.start exDyn) ∧
    WellScheduled (applyOp (DynProj.start exDyn) Op.start) := by
  have h := dp_start_idempotent (DynProj.start exDyn)
  have hws : WellScheduled (DynProj.start exDyn) :=
    ⟨fun _ => by decide, fun hne => absurd rfl hne⟩
  exact ⟨rfl, h.1 (Or.inl rfl), hws, (h.2.2 hws).1 Op.start⟩

end Atlas
